import Mathlib

/-!
Verification of the hpchecker honeypot-analysis service.

The development shallowly embeds the Python sources:
* `src/honeypot_service.py` — `extract_reasons`, `analyze_contract` and the
  `/check-honeypot` endpoint `check_honeypot` (FastAPI, SQLAlchemy cache);
* `src/checkHP.py` — the command-line entry point;
* `src/database.py` — the `HoneypotRecord` row shape.

Strings are modelled through their character lists (`String.data`); all string
helpers used by the Python code (`split('\n')`, `startswith`, `strip`,
`lower`, substring `in`, `re.findall(r'\d+')`, `int`) are given structural
recursions over `List Char` below.  `\d` and `lower` are modelled on ASCII,
which covers every token and address the service manipulates.  I/O (Etherscan
fetch, the grok subprocess) is modelled by an `Env` of oracles returning
`Except`, and the database by a list of rows plus an event trace recording
which oracles were consulted.
-/

/-- Model of Python `str.split('\n')`: accumulator holds the current line
reversed; every `'\n'` closes a line, and the trailing segment is always
emitted (so `"" ↦ [""]` and a trailing newline yields a final empty line),
exactly like `str.split`. -/
def splitLinesAux : List Char → List Char → List (List Char)
  | [], cur => [cur.reverse]
  | c :: rest, cur =>
    if c == '\n' then cur.reverse :: splitLinesAux rest []
    else splitLinesAux rest (c :: cur)

/-- `output.split('\n')` from `extract_reasons`. -/
def split_lines (cs : List Char) : List (List Char) := splitLinesAux cs []

/-- Model of Python `str.startswith`: the second list is a leading segment of
the first. -/
def beginsWith : List Char → List Char → Bool
  | _, [] => true
  | [], _ :: _ => false
  | a :: as, b :: bs => a == b && beginsWith as bs

/-- Model of Python substring membership `needle in hay`. -/
def containsSeq (hay needle : List Char) : Bool :=
  match hay with
  | [] => needle.isEmpty
  | c :: rest => beginsWith (c :: rest) needle || containsSeq rest needle

/-- Model of Python `str.strip()`: drop whitespace from both ends. -/
def stripChars (cs : List Char) : List Char :=
  ((cs.dropWhile Char.isWhitespace).reverse.dropWhile Char.isWhitespace).reverse

/-- Model of Python `str.lower()` on one character (ASCII range, which covers
the tokens and hex addresses handled by the service; CJK characters are fixed
points of `lower` in Python as well). -/
def lowerChar (c : Char) : Char :=
  if 65 ≤ c.toNat ∧ c.toNat ≤ 90 then Char.ofNat (c.toNat + 32) else c

/-- Model of Python `str.lower()`. -/
def lowerChars (cs : List Char) : List Char := cs.map lowerChar

/-- `request.token_address.lower()` as used for every cache key. -/
def lowerString (s : String) : String := String.mk (lowerChars s.data)

/-- Model of `re.findall(r'\d+', s)`: maximal runs of decimal digits, in order
of appearance.  The accumulator holds the run currently being read, reversed. -/
def digitRunsAux : List Char → List Char → List (List Char)
  | [], cur => if cur.isEmpty then [] else [cur.reverse]
  | c :: rest, cur =>
    if c.isDigit then digitRunsAux rest (c :: cur)
    else if cur.isEmpty then digitRunsAux rest []
    else cur.reverse :: digitRunsAux rest []

/-- All maximal digit runs of a line, `re.findall(r'\d+', line)`. -/
def digitRuns (cs : List Char) : List (List Char) := digitRunsAux cs []

/-- Model of Python `int` on a string of decimal digits. -/
def digitsToNat (cs : List Char) : Nat :=
  cs.foldl (fun n c => n * 10 + (c.toNat - 48)) 0

/-- The fixed marker line introducing the model decision. -/
def markerChars : List Char := "Final Response:".data

/-- The negative token `"否"`. -/
def negToken : List Char := "否".data

/-- The negative token `"no"`. -/
def noToken : List Char := "no".data

/-- The positive token `"是"`. -/
def posToken : List Char := "是".data

/-- The loop of `extract_reasons` (honeypot_service.py lines 104–110): the
first line starting with `Final Response:` selects the *immediately* following
line, stripped, as the decision line; when the marker line is the last line
(`i + 1 < len(lines)` fails) `final_response` stays unset, the same outcome as
a missing marker, so both singleton cases return `none`. -/
def decisionLineChars : List (List Char) → Option (List Char)
  | [] => none
  | [_] => none
  | l :: next :: rest =>
    if beginsWith l markerChars then some (stripChars next)
    else decisionLineChars (next :: rest)

/-- Lines 115–125 of honeypot_service.py: classify a non-empty decision line.
`"否"`/`"no"` anywhere in the lower-cased line ⇒ `[0]`; else a `"是"` with at
least one digit run ⇒ the runs as integers; else `[0]`. -/
def classifyDecision (fr : List Char) : List Nat :=
  if containsSeq (lowerChars fr) negToken || containsSeq (lowerChars fr) noToken then [0]
  else if containsSeq fr posToken then
    let nums := digitRuns fr
    if nums.isEmpty then [0] else nums.map digitsToNat
  else [0]

/-- `extract_reasons` over character lists.  `if not final_response` in the
Python collapses the unset case and the empty-after-strip case. -/
def extractReasonsChars (cs : List Char) : List Nat :=
  match decisionLineChars (split_lines cs) with
  | none => [0]
  | some fr => if fr.isEmpty then [0] else classifyDecision fr

/-- `extract_reasons(output)` from honeypot_service.py (lines 101–125). -/
def extract_reasons (output : String) : List Nat := extractReasonsChars output.data

/-- The pure part of `analyze_contract` (honeypot_service.py lines 152–161):
strip the detector stdout, extract the reasons, and compute
`is_honeypot = len(reasons) > 0 and reasons[0] != 0`. -/
def analyze_contract (stdout : String) : Bool × List Nat :=
  let reasons := extractReasonsChars (stripChars stdout.data)
  (!reasons.isEmpty && (reasons.headD 0 != 0), reasons)

/-- The body of a `/check-honeypot` request (honeypot_service.py lines 43–45):
an address, plus an optional caller-supplied source override. -/
structure TokenRequest where
  token_address : String
  source_code : Option String

/-- The `honeypots` row shape from database.py (the autoincrement surrogate id
and the timestamp play no role in the service logic). -/
structure HoneypotRecord where
  token_address : String
  is_honeypot : Bool
  reasons : List Nat
deriving DecidableEq

/-- The JSON body returned by `/check-honeypot`. -/
structure CheckResponse where
  token_address : String
  is_honeypot : Bool
  reasons : List Nat
  cached : Bool
deriving DecidableEq

/-- The two I/O actions of the pipeline, recorded as an event trace: an
Etherscan source fetch and a run of the classifier subprocess. -/
inductive Event where
  | fetchCall (address : String)
  | classifyCall (address : String)
deriving DecidableEq

/-- Oracles for the two effectful collaborators: `fetchSource` models
`get_contract_source_code` (address ↦ source text, or an error detail), and
`classify` models the `honeypot_detector.py` subprocess of `analyze_contract`
(address and source ↦ raw stdout, or the script-failure detail). -/
structure Env where
  fetchSource : String → Except String String
  classify : String → String → Except String String

/-- Source acquisition step of `check_honeypot` (lines 193–198): a request
override is used as-is without I/O; otherwise Etherscan is consulted, which is
one `fetchCall` event whether it succeeds or raises. -/
def getSource (env : Env) (req : TokenRequest) : Except String String × List Event :=
  match req.source_code with
  | some sc => (Except.ok sc, [])
  | none =>
    match env.fetchSource req.token_address with
    | Except.ok sc => (Except.ok sc, [Event.fetchCall req.token_address])
    | Except.error e => (Except.error e, [Event.fetchCall req.token_address])

/-- The `/check-honeypot` endpoint (honeypot_service.py lines 168–225) as a
state transformer on the cache: look up the lower-cased address; on a hit
return the stored row with `cached := true` and no I/O; on a miss acquire the
source, run the classifier, compute the verdict with `analyze_contract`,
append the new row keyed by the lower-cased address, and return it with
`cached := false`.  Any raised error becomes a single `Except.error` detail
(the `except` block re-raises `HTTPException(500, str(e))`) and reaches the
caller before `db.add`/`db.commit`, leaving the cache untouched. -/
def check_honeypot (env : Env) (req : TokenRequest) (db : List HoneypotRecord) :
    Except String CheckResponse × List HoneypotRecord × List Event :=
  let key := lowerString req.token_address
  match db.find? (fun r => r.token_address == key) with
  | some record =>
    (Except.ok { token_address := record.token_address, is_honeypot := record.is_honeypot,
                 reasons := record.reasons, cached := true }, db, [])
  | none =>
    match getSource env req with
    | (Except.error e, evs) => (Except.error e, db, evs)
    | (Except.ok source_code, evs) =>
      match env.classify req.token_address source_code with
      | Except.error e => (Except.error e, db, evs ++ [Event.classifyCall req.token_address])
      | Except.ok stdout =>
        let verdict := analyze_contract stdout
        let new_record : HoneypotRecord :=
          { token_address := key, is_honeypot := verdict.1, reasons := verdict.2 }
        (Except.ok { token_address := key, is_honeypot := verdict.1,
                     reasons := verdict.2, cached := false },
         db ++ [new_record], evs ++ [Event.classifyCall req.token_address])

/-- Outcome of the `check_honeypot` HTTP client in checkHP.py: either the
parsed `(is_honeypot, reasons)` pair or the error info line it prints. -/
inductive NetResult where
  | ok (is_honeypot : Bool) (reasons : List Nat)
  | err (info : String)

/-- The address-format test of `check_ca` (checkHP.py line 55):
`token_address.startswith("0x") and len(token_address) == 42`. -/
def valid_address (addr : String) : Bool :=
  beginsWith addr.data "0x".data && (addr.data.length == 42)

/-- The `reason_descriptions` table of `check_ca` (checkHP.py lines 74–81). -/
def reason_description : Nat → Option String
  | 1 => some "transferFrom调用了恶意函数,或者调用的approve函数被改成了恶意函数"
  | 2 => some "可以修改其他用户的balance"
  | 3 => some "特权地址可以绕过allowance的检查"
  | 4 => some "renounceOwnership函数被篡改"
  | 5 => some "调税机制允许往大于50的方向调整"
  | 6 => some "在卖出时根据累积买入量限制散户卖出"
  | _ => none

/-- The verdict report printed by `check_ca` (checkHP.py lines 70–86). -/
def verdict_lines (is_honeypot : Bool) (reasons : List Nat) : List String :=
  if is_honeypot then
    ["⚠️ Warning: This token is a honeypot!"] ++
      (if reasons.isEmpty then [] else
        ["\nDetection reasons:"] ++
          reasons.filterMap (fun r => (reason_description r).map (fun d => "- " ++ d)))
  else ["✅ This token is not a honeypot"]

/-- `check_ca` (checkHP.py lines 48–86) as the list of lines it prints: an
invalid address prints the two error lines and *returns* — it never calls
`sys.exit` — otherwise the header lines are printed and the network outcome is
reported. -/
def check_ca_lines (token_address model : String) (net : NetResult) : List String :=
  if !(beginsWith token_address.data "0x".data) || (token_address.data.length != 42) then
    ["Error: Invalid token address format",
     "Token address should start with \x270x\x27 and be 42 characters long"]
  else
    ["Checking token: " ++ token_address, "Using AI model: " ++ model] ++
      match net with
      | NetResult.err info => [info]
      | NetResult.ok ih rs => verdict_lines ih rs

/-- Exit status and printed lines of one CLI run. -/
structure CliOutcome where
  exit_code : Nat
  printed : List String
deriving DecidableEq

/-- The `__main__` block of checkHP.py (lines 93–106): fewer than two argv
entries ⇒ usage and `sys.exit(1)`; a model other than `grok`/`claude` ⇒ error
and `sys.exit(1)`; otherwise `main` runs `check_ca` to completion and the
process exits 0. -/
def cli_main (argv : List String) (net : NetResult) : CliOutcome :=
  if argv.length < 2 then
    { exit_code := 1,
      printed := ["Usage: " ++ argv.headD "" ++ " <token_address> [model]",
                  "model: grok (default) or claude"] }
  else
    let token_address := argv.getD 1 ""
    let model := if argv.length > 2 then argv.getD 2 "" else "grok"
    if !(model == "grok" || model == "claude") then
      { exit_code := 1, printed := ["Error: model must be either \x27grok\x27 or \x27claude\x27"] }
    else
      { exit_code := 0, printed := check_ca_lines token_address model net }

/-- The model selector the CLI run uses: `argv[2]` when present, else `grok`. -/
def model_of (argv : List String) : String :=
  if argv.length > 2 then argv.getD 2 "" else "grok"

/-- Membership test of the CLI model whitelist `["grok", "claude"]`. -/
def valid_model (m : String) : Bool := m == "grok" || m == "claude"

/-- Index of the first line starting with the marker, an index-based
reformulation of the search loop used to state what `decisionLineChars`
computes. -/
def markerIdx : List (List Char) → Option Nat
  | [] => none
  | l :: t => if beginsWith l markerChars then some 0 else (markerIdx t).map (· + 1)

/-- Decision-line selection as the spec words it: after the first marker line,
"take the following *non-empty* line as the decision line".  Written from the
spec sentence, to be compared with `decisionLineChars`, which is written from
the code. -/
def decisionLineSpec : List (List Char) → Option (List Char)
  | [] => none
  | l :: t =>
    if beginsWith l markerChars then (t.map stripChars).find? (fun x => !x.isEmpty)
    else decisionLineSpec t

/-- The extractor as described by the spec sentence behind claim C4: identical
to `extract_reasons` except that the decision line is the first non-empty line
after the marker. -/
def extract_reasons_spec (output : String) : List Nat :=
  match decisionLineSpec (split_lines output.data) with
  | none => [0]
  | some fr => classifyDecision fr

/-- Environment whose classifier answers the negative marker. -/
def srcEnvNeg : Env :=
  { fetchSource := fun _ => Except.ok "contract source",
    classify := fun _ _ => Except.ok "Final Response:\n否" }

/-- Environment whose classifier emits reason run `0,3` after the positive
marker. -/
def srcEnvZeroReason : Env :=
  { fetchSource := fun _ => Except.ok "contract source",
    classify := fun _ _ => Except.ok "Final Response:\n是0,3" }

/-- Environment whose classifier subprocess fails. -/
def srcEnvFail : Env :=
  { fetchSource := fun _ => Except.ok "contract source",
    classify := fun _ _ => Except.error "Script execution failed: boom" }

/-- A request for address `0xAB` with no source override. -/
def reqAB : TokenRequest := { token_address := "0xAB", source_code := none }

/-- The same address as `reqAB` in different letter case. -/
def reqABupper : TokenRequest := { token_address := "0XAB", source_code := none }

/-- The cache row left by a negative verdict for `0xAB`. -/
def dbNeg : List HoneypotRecord := [⟨"0xab", false, [0]⟩]

/-! ## Helper lemmas on the reason extractor -/

/-- `classifyDecision` never returns the empty list: every branch is `[0]` or
a `map` of a list known to be non-empty. -/
theorem classifyDecision_ne_nil (fr : List Char) : classifyDecision fr ≠ [] := by
  simp only [classifyDecision]
  split
  · simp
  · split
    · split
      · simp
      · rename_i hne
        simp only [ne_eq, List.map_eq_nil_iff]
        intro hnil
        simp [hnil] at hne
    · simp

/-- `extractReasonsChars` never returns the empty list. -/
theorem extractReasonsChars_ne_nil (cs : List Char) : extractReasonsChars cs ≠ [] := by
  simp only [extractReasonsChars]
  split
  · simp
  · split
    · simp
    · exact classifyDecision_ne_nil _

/-- When no line starts with the marker, the search loop leaves the decision
line unset. -/
theorem decisionLineChars_none_of_no_marker (lines : List (List Char))
    (h : ∀ l ∈ lines, beginsWith l markerChars = false) :
    decisionLineChars lines = none := by
  induction lines with
  | nil => rfl
  | cons l t ih =>
    cases t with
    | nil => rfl
    | cons nx rest =>
      have hl : beginsWith l markerChars = false := h l (by simp)
      simp only [decisionLineChars, hl, Bool.false_eq_true, if_false]
      exact ih fun x hx => h x (by simp [hx])

/-- Unfolding of `markerIdx` on a cons cell, stated once so rewriting does not
recurse. -/
theorem markerIdx_cons (l : List Char) (t : List (List Char)) :
    markerIdx (l :: t) =
      if beginsWith l markerChars then some 0 else (markerIdx t).map (· + 1) := rfl

/-- The search loop of `extract_reasons` selects exactly the line *immediately*
after the first marker line, stripped. -/
theorem decisionLineChars_eq_markerIdx (lines : List (List Char)) :
    decisionLineChars lines =
      match markerIdx lines with
      | none => none
      | some i => lines[i + 1]?.map stripChars := by
  induction lines with
  | nil => rfl
  | cons l t ih =>
    rw [markerIdx_cons]
    by_cases h : beginsWith l markerChars = true
    · rw [if_pos h]
      cases t with
      | nil => simp [decisionLineChars]
      | cons nx rest => simp [decisionLineChars, h]
    · rw [if_neg h]
      cases t with
      | nil => simp [decisionLineChars, markerIdx]
      | cons nx rest =>
        rw [show decisionLineChars (l :: nx :: rest) = decisionLineChars (nx :: rest) from by
          simp [decisionLineChars, h]]
        rw [ih]
        cases hm : markerIdx (nx :: rest) with
        | none => simp
        | some i => simp

/-! ## Claims about the reason extractor -/

/-- C1, counterexample: on the spec's own test input
`"...\nFinal Response:\nYes, reasons 2 and 5\n"` the extractor does *not*
return `[2, 5]`. -/
theorem c1_counterexample :
    extract_reasons "...\nFinal Response:\nYes, reasons 2 and 5\n" ≠ [2, 5] := by decide

/-- C1 (amended): for the input `"...\nFinal Response:\nYes, reasons 2 and 5\n"`
the extractor returns `[0]`.  The only positive token the code recognises is
the Chinese character `是` (honeypot_service.py line 120); the English
decision line `Yes, reasons 2 and 5` does not contain it (nor a negative
token), so the line is not classified positive, no digit runs are extracted,
and the conservative default `[0]` is returned. -/
theorem c1_amended_english_positive_not_recognized :
    extract_reasons "...\nFinal Response:\nYes, reasons 2 and 5\n" = [0] ∧
    containsSeq "Yes, reasons 2 and 5".data posToken = false := by
  exact ⟨by decide, by decide⟩

/-- C4, counterexample: on `"Final Response:\n\n是1"` the spec's reading
("take the following non-empty line as the decision line") selects `是1` and
yields `[1]`, but the code looks only at the *immediately* following line,
which is blank, and returns `[0]`. -/
theorem c4_counterexample :
    extract_reasons_spec "Final Response:\n\n是1" = [1] ∧
    extract_reasons "Final Response:\n\n是1" = [0] := by
  exact ⟨by decide, by decide⟩

/-- C4 (amended): the extractor splits its input into lines, locates the first
line starting with `Final Response:`, and takes the *immediately* following
line, stripped of surrounding whitespace, as the decision line; it returns
`[0]` when the marker is absent, when the marker line is the last line, or
when the immediately following line is blank after stripping (a later
non-empty line is not consulted). -/
theorem c4_amended_immediate_next_line (s : String) :
    extract_reasons s =
      match markerIdx (split_lines s.data) with
      | none => [0]
      | some i =>
        match (split_lines s.data)[i + 1]? with
        | none => [0]
        | some nxt =>
          if (stripChars nxt).isEmpty then [0] else classifyDecision (stripChars nxt) := by
  simp only [extract_reasons, extractReasonsChars]
  rw [decisionLineChars_eq_markerIdx]
  cases hm : markerIdx (split_lines s.data) with
  | none => rfl
  | some i =>
    cases hg : (split_lines s.data)[i + 1]? with
    | none => simp [hg]
    | some nxt => simp [hg]

/-- C5: the extractor is a total function on strings — it is a Lean `def`
evaluated by the kernel, so totality and absence of exceptions hold by
construction — its result is never the empty list, and when no line of the
input starts with the `Final Response:` marker it returns the default `[0]`. -/
theorem c5_total_nonempty_default (s : String) :
    extract_reasons s ≠ [] ∧
    ((∀ l ∈ split_lines s.data, beginsWith l markerChars = false) →
      extract_reasons s = [0]) := by
  constructor
  · exact extractReasonsChars_ne_nil s.data
  · intro h
    simp only [extract_reasons, extractReasonsChars]
    rw [decisionLineChars_none_of_no_marker _ h]

/-- C5 witness: the unparseable input `"hello world"` has no marker line, a
non-empty result, and the default value `[0]`. -/
theorem c5_total_nonempty_default_witness :
    extract_reasons "hello world" ≠ [] ∧ extract_reasons "hello world" = [0] :=
  ⟨(c5_total_nonempty_default "hello world").1,
   (c5_total_nonempty_default "hello world").2 (by decide)⟩

/-- C6, counterexample: for the decision line `是` (input
`"Final Response:\n是"`), which contains the positive token, no negative
token, and no digit run, the extractor returns `[0]` and not the list of all
digit runs of the line (which is empty) — so the claim's unconditional
"returns all maximal digit runs" fails on digit-free positive lines. -/
theorem c6_counterexample :
    extract_reasons "Final Response:\n是" = [0] ∧
    containsSeq "是".data posToken = true ∧
    containsSeq (lowerChars "是".data) negToken = false ∧
    containsSeq (lowerChars "是".data) noToken = false ∧
    List.map digitsToNat (digitRuns "是".data) = [] ∧
    ([0] : List Nat) ≠ List.map digitsToNat (digitRuns "是".data) := by
  refine ⟨by decide, by decide, by decide, by decide, by decide, by decide⟩

/-- C6 (amended): if the decision line contains no negative token, contains
the positive token `是`, and has at least one digit run, the extractor returns
all maximal digit runs of the line converted to integers, in left-to-right
order with duplicates preserved; with no digit run it falls back to `[0]`. -/
theorem c6_amended_digit_runs (s : String) (fr : List Char)
    (hd : decisionLineChars (split_lines s.data) = some fr)
    (hneg : containsSeq (lowerChars fr) negToken = false)
    (hno : containsSeq (lowerChars fr) noToken = false)
    (hpos : containsSeq fr posToken = true)
    (hdig : digitRuns fr ≠ []) :
    extract_reasons s = (digitRuns fr).map digitsToNat := by
  have hfr : fr.isEmpty = false := by
    cases fr with
    | nil => exact absurd hpos (by decide)
    | cons c cs => rfl
  simp only [extract_reasons, extractReasonsChars]
  rw [hd]
  simp only [hfr, Bool.false_eq_true, if_false, classifyDecision, hneg, hno,
    Bool.or_self, hpos, if_true, if_false]
  have hie : (digitRuns fr).isEmpty = false := by
    cases he : digitRuns fr with
    | nil => exact absurd he hdig
    | cons a t => rfl
  simp [hie]

/-- C6 witness: the spec's example decision line `是1,3` yields `[1, 3]`. -/
theorem c6_amended_digit_runs_witness :
    extract_reasons "...\nFinal Response:\n是1,3\n" = [1, 3] :=
  (c6_amended_digit_runs "...\nFinal Response:\n是1,3\n" "是1,3".data
    (by decide) (by decide) (by decide) (by decide) (by decide)).trans (by decide)

/-- C10: a decision line containing the positive token `是` but no digit run
degrades to the not-honeypot default `[0]` rather than an empty reason list. -/
theorem c10_positive_without_digits_default (s : String) (fr : List Char)
    (hd : decisionLineChars (split_lines s.data) = some fr)
    (hpos : containsSeq fr posToken = true)
    (hdig : digitRuns fr = []) :
    extract_reasons s = [0] := by
  simp only [extract_reasons, extractReasonsChars]
  rw [hd]
  cases hfr : fr.isEmpty with
  | true => simp [hfr]
  | false => simp [hfr, classifyDecision, hdig]

/-- C10 witness: the input `"Final Response:\n是"` (decision line exactly `是`)
returns `[0]`. -/
theorem c10_positive_without_digits_default_witness :
    extract_reasons "Final Response:\n是" = [0] :=
  c10_positive_without_digits_default "Final Response:\n是" "是".data
    (by decide) (by decide) (by decide)

/-! ## Helper lemmas on the orchestrator -/

/-- `find?` skips a prefix in which nothing satisfies the predicate. -/
theorem find?_append_of_none {α : Type} (p : α → Bool) (l₁ l₂ : List α)
    (h : l₁.find? p = none) : (l₁ ++ l₂).find? p = l₂.find? p := by
  induction l₁ with
  | nil => rfl
  | cons a t ih =>
    simp only [List.cons_append, List.find?] at h ⊢
    cases hpa : p a with
    | true => simp [hpa] at h
    | false =>
      simp only [hpa] at h ⊢
      exact ih h

/-- The verdict computed by `analyze_contract` always carries a non-empty
reasons list, and its honeypot flag is set exactly when the first reason code
is non-zero. -/
theorem analyze_contract_inv (stdout : String) :
    (analyze_contract stdout).2 ≠ [] ∧
    ((analyze_contract stdout).1 = true ↔ (analyze_contract stdout).2.headD 0 ≠ 0) := by
  simp only [analyze_contract]
  have hne : extractReasonsChars (stripChars stdout.data) ≠ [] :=
    extractReasonsChars_ne_nil _
  refine ⟨hne, ?_⟩
  have hie : (extractReasonsChars (stripChars stdout.data)).isEmpty = false := by
    cases he : extractReasonsChars (stripChars stdout.data) with
    | nil => exact absurd he hne
    | cons a t => rfl
  simp [hie, bne_iff_ne]

/-- Every record in the cache after a `check_honeypot` call either was already
there, or is the single new record of this run: keyed by the lower-cased
request address, with a non-empty reasons list whose head decides the honeypot
flag. -/
theorem check_honeypot_new_records (env : Env) (req : TokenRequest)
    (db : List HoneypotRecord) (res : Except String CheckResponse)
    (db' : List HoneypotRecord) (evs : List Event)
    (h : check_honeypot env req db = (res, db', evs)) :
    ∀ r ∈ db', r ∈ db ∨
      (r.token_address = lowerString req.token_address ∧ r.reasons ≠ [] ∧
        (r.is_honeypot = true ↔ r.reasons.headD 0 ≠ 0)) := by
  intro r hr
  simp only [check_honeypot] at h
  cases hf : db.find? (fun x => x.token_address == lowerString req.token_address) with
  | some record =>
    simp only [hf, Prod.mk.injEq] at h
    exact Or.inl (h.2.1 ▸ hr)
  | none =>
    simp only [hf] at h
    rcases hgs : getSource env req with ⟨gres, gevs⟩
    rw [hgs] at h
    cases gres with
    | error e => simp only [Prod.mk.injEq] at h; exact Or.inl (h.2.1 ▸ hr)
    | ok sc =>
      cases hc : env.classify req.token_address sc with
      | error e =>
        simp only [hc, Prod.mk.injEq] at h
        exact Or.inl (h.2.1 ▸ hr)
      | ok stdout =>
        simp only [hc, Prod.mk.injEq] at h
        rw [← h.2.1] at hr
        rcases List.mem_append.mp hr with hmem | hmem
        · exact Or.inl hmem
        · right
          have hr' := List.mem_singleton.mp hmem
          subst hr'
          exact ⟨rfl, (analyze_contract_inv stdout).1, (analyze_contract_inv stdout).2⟩

/-- After a successful call for an address, a second call whose address
lower-cases to the same key is a pure cache hit: it returns the same verdict
with `cached := true`, changes nothing, and performs no I/O. -/
theorem check_honeypot_second_call (env : Env) (req1 req2 : TokenRequest)
    (db db' : List HoneypotRecord) (resp : CheckResponse) (evs : List Event)
    (hkey : lowerString req2.token_address = lowerString req1.token_address)
    (h : check_honeypot env req1 db = (Except.ok resp, db', evs)) :
    check_honeypot env req2 db' =
      (Except.ok { token_address := resp.token_address, is_honeypot := resp.is_honeypot,
                   reasons := resp.reasons, cached := true }, db', ([] : List Event)) := by
  simp only [check_honeypot] at h ⊢
  rw [hkey]
  cases hf : db.find? (fun x => x.token_address == lowerString req1.token_address) with
  | some record =>
    simp only [hf, Prod.mk.injEq, Except.ok.injEq] at h
    obtain ⟨hresp, hdb, hevs⟩ := h
    subst hresp
    subst hdb
    rw [hf]
  | none =>
    simp only [hf] at h
    rcases hgs : getSource env req1 with ⟨gres, gevs⟩
    rw [hgs] at h
    cases gres with
    | error e => simp at h
    | ok sc =>
      cases hc : env.classify req1.token_address sc with
      | error e => simp [hc] at h
      | ok stdout =>
        simp only [hc, Prod.mk.injEq, Except.ok.injEq] at h
        obtain ⟨hresp, hdb, hevs⟩ := h
        subst hresp
        subst hdb
        rw [find?_append_of_none _ _ _ hf]
        simp [List.find?]

/-! ## Claims about the orchestrator -/

/-- C2, counterexample: a classifier output whose decision line is `是0,3`
leads to a *stored* record with `reasons = [0, 3]` and `is_honeypot = false`
(because only `reasons[0]` is consulted), so `is_honeypot` is false while
`reasons ≠ [0]`, and the reserved code 0 co-occurs with code 3 — the claimed
invariant `is_honeypot == (reasons != [0])` fails on this stored record. -/
theorem c2_counterexample :
    (check_honeypot srcEnvZeroReason reqAB []).2.1.map (fun r => (r.is_honeypot, r.reasons)) =
      [(false, [0, 3])] ∧
    ¬ ((false = true) ↔ ([0, 3] : List Nat) ≠ [0]) := by
  exact ⟨rfl, by decide⟩

/-- C2 (amended): for every Verdict stored by a successful analyze run, the
reasons list is non-empty and `is_honeypot` holds iff the *first* reason code
is non-zero.  `reasons == [0]` still implies not-honeypot, but code 0 may
co-occur with other codes (e.g. `[0, 3]` is stored with
`is_honeypot = false`), so the claimed two-sided invariant
`is_honeypot == (reasons != [0])` does not hold. -/
theorem c2_amended_stored_invariant (env : Env) (req : TokenRequest)
    (db : List HoneypotRecord) (resp : CheckResponse)
    (db' : List HoneypotRecord) (evs : List Event)
    (h : check_honeypot env req db = (Except.ok resp, db', evs)) :
    ∀ r ∈ db', r ∈ db ∨
      (r.reasons ≠ [] ∧ (r.is_honeypot = true ↔ r.reasons.headD 0 ≠ 0)) := by
  intro r hr
  rcases check_honeypot_new_records env req db (Except.ok resp) db' evs h r hr with hmem | hinv
  · exact Or.inl hmem
  · exact Or.inr ⟨hinv.2.1, hinv.2.2⟩

/-- C2 witness: the run of `srcEnvZeroReason` on a fresh cache stores the
record `("0xab", false, [0, 3])`, which satisfies the amended invariant. -/
theorem c2_amended_stored_invariant_witness :
    (⟨"0xab", false, [0, 3]⟩ : HoneypotRecord) ∈ ([] : List HoneypotRecord) ∨
      (([0, 3] : List Nat) ≠ [] ∧ ((false = true) ↔ ([0, 3] : List Nat).headD 0 ≠ 0)) :=
  c2_amended_stored_invariant srcEnvZeroReason reqAB []
    ⟨"0xab", false, [0, 3], false⟩ [⟨"0xab", false, [0, 3]⟩]
    [Event.fetchCall "0xAB", Event.classifyCall "0xAB"] rfl
    ⟨"0xab", false, [0, 3]⟩ (by decide)

/-- C3: if `check_honeypot` succeeds, calling it again on the resulting cache
with the same request returns the identical verdict (same address, flag and
reasons), reported with `cached := true`, leaves the cache unchanged, and
performs no source-fetch and no classification call (empty event trace). -/
theorem c3_idempotent_cached_second_call (env : Env) (req : TokenRequest)
    (db db' : List HoneypotRecord) (resp : CheckResponse) (evs : List Event)
    (h : check_honeypot env req db = (Except.ok resp, db', evs)) :
    check_honeypot env req db' =
      (Except.ok { token_address := resp.token_address, is_honeypot := resp.is_honeypot,
                   reasons := resp.reasons, cached := true }, db', ([] : List Event)) :=
  check_honeypot_second_call env req req db db' resp evs rfl h

/-- C3 witness: after the negative-verdict run for `0xAB` on an empty cache,
the second call returns the stored verdict with `cached := true` and an empty
event trace. -/
theorem c3_idempotent_cached_second_call_witness :
    check_honeypot srcEnvNeg reqAB dbNeg =
      (Except.ok ⟨"0xab", false, [0], true⟩, dbNeg, ([] : List Event)) :=
  c3_idempotent_cached_second_call srcEnvNeg reqAB [] dbNeg
    ⟨"0xab", false, [0], false⟩
    [Event.fetchCall "0xAB", Event.classifyCall "0xAB"] rfl

/-- C7: cache keys are the lower-cased address on lookup and on store, so after
a successful call, any request whose address differs only in letter case hits
the same cache row — same verdict, `cached := true`, no new entry, no I/O —
and every record a call adds is keyed by the lower-cased request address. -/
theorem c7_case_normalized_same_row (env : Env) (req1 req2 : TokenRequest)
    (db db' : List HoneypotRecord) (resp : CheckResponse) (evs : List Event)
    (hcase : lowerString req2.token_address = lowerString req1.token_address)
    (h : check_honeypot env req1 db = (Except.ok resp, db', evs)) :
    check_honeypot env req2 db' =
      (Except.ok { token_address := resp.token_address, is_honeypot := resp.is_honeypot,
                   reasons := resp.reasons, cached := true }, db', ([] : List Event)) ∧
    ∀ r ∈ db', r ∈ db ∨ r.token_address = lowerString req1.token_address := by
  refine ⟨check_honeypot_second_call env req1 req2 db db' resp evs hcase h, ?_⟩
  intro r hr
  rcases check_honeypot_new_records env req1 db (Except.ok resp) db' evs h r hr with hmem | hinv
  · exact Or.inl hmem
  · exact Or.inr hinv.1

/-- C7 witness: `0XAB` (upper case) hits the row stored for `0xAB`. -/
theorem c7_case_normalized_same_row_witness :
    (check_honeypot srcEnvNeg reqABupper dbNeg =
      (Except.ok ⟨"0xab", false, [0], true⟩, dbNeg, ([] : List Event))) ∧
    ((⟨"0xab", false, [0]⟩ : HoneypotRecord) ∈ ([] : List HoneypotRecord) ∨
      "0xab" = lowerString reqAB.token_address) :=
  ⟨(c7_case_normalized_same_row srcEnvNeg reqAB reqABupper [] dbNeg
      ⟨"0xab", false, [0], false⟩
      [Event.fetchCall "0xAB", Event.classifyCall "0xAB"] rfl rfl).1,
   (c7_case_normalized_same_row srcEnvNeg reqAB reqABupper [] dbNeg
      ⟨"0xab", false, [0], false⟩
      [Event.fetchCall "0xAB", Event.classifyCall "0xAB"] rfl rfl).2
     ⟨"0xab", false, [0]⟩ (by decide)⟩

/-- C8: a failing run (source fetch or classifier error, surfaced to the
caller as the single `Except.error` detail) writes nothing: the cache is
unchanged, and — since a failure can only arise on a cache miss — the cache
still holds no record for the address, so a subsequent call for the same
address runs the full pipeline again. -/
theorem c8_failure_leaves_no_record (env : Env) (req : TokenRequest)
    (db : List HoneypotRecord) (e : String)
    (db2 : List HoneypotRecord) (evs : List Event)
    (h : check_honeypot env req db = (Except.error e, db2, evs)) :
    db2 = db ∧
    db.find? (fun r => r.token_address == lowerString req.token_address) = none := by
  simp only [check_honeypot] at h
  cases hf : db.find? (fun x => x.token_address == lowerString req.token_address) with
  | some record => simp [hf] at h
  | none =>
    refine ⟨?_, rfl⟩
    simp only [hf] at h
    rcases hgs : getSource env req with ⟨gres, gevs⟩
    rw [hgs] at h
    cases gres with
    | error e2 => simp only [Prod.mk.injEq] at h; exact h.2.1.symm
    | ok sc =>
      cases hc : env.classify req.token_address sc with
      | error e2 => simp only [hc, Prod.mk.injEq] at h; exact h.2.1.symm
      | ok stdout => simp [hc] at h

/-- C8 witness: with a failing classifier the call on the empty cache errors,
leaves the cache empty, and no record for `0xAB` exists afterwards. -/
theorem c8_failure_leaves_no_record_witness :
    ([] : List HoneypotRecord) = ([] : List HoneypotRecord) ∧
    ([] : List HoneypotRecord).find?
      (fun r => r.token_address == lowerString reqAB.token_address) = none :=
  c8_failure_leaves_no_record srcEnvFail reqAB [] "Script execution failed: boom"
    [] [Event.fetchCall "0xAB", Event.classifyCall "0xAB"] rfl

/-! ## Claims about the command-line entry point -/

/-- C9, counterexample: for the invalid address `abc` (no `0x`, not 42 chars)
the CLI prints the format error but `check_ca` merely returns, so the process
exits 0, not non-zero. -/
theorem c9_counterexample :
    (cli_main ["checkHP.py", "abc"] (NetResult.err "Error: could not connect")).exit_code = 0 ∧
    valid_address "abc" = false ∧
    "Error: Invalid token address format" ∈
      (cli_main ["checkHP.py", "abc"] (NetResult.err "Error: could not connect")).printed := by
  exact ⟨by decide, by decide, by decide⟩

/-- C9 (amended): the CLI exits non-zero (1) when the required arguments are
missing or when the model selector is not `grok`/`claude`; on an invalid token
address format (not starting with `0x` or not 42 characters) it prints the
format-error message but exits *zero*, because `check_ca` returns without
calling `sys.exit`. -/
theorem c9_amended_exit_codes (argv : List String) (net : NetResult) :
    (argv.length < 2 → (cli_main argv net).exit_code = 1) ∧
    (2 ≤ argv.length → valid_model (model_of argv) = false →
      (cli_main argv net).exit_code = 1) ∧
    (2 ≤ argv.length → valid_model (model_of argv) = true →
      valid_address (argv.getD 1 "") = false →
      (cli_main argv net).exit_code = 0 ∧
        "Error: Invalid token address format" ∈ (cli_main argv net).printed) := by
  refine ⟨?_, ?_, ?_⟩
  · intro h
    simp [cli_main, h]
  · intro h1 h2
    have hlt : ¬ argv.length < 2 := Nat.not_lt.mpr h1
    simp only [valid_model, model_of] at h2
    simp only [cli_main]
    rw [if_neg hlt, h2]
    rfl
  · intro h1 h2 h3
    have hlt : ¬ argv.length < 2 := Nat.not_lt.mpr h1
    simp only [valid_model, model_of] at h2
    unfold valid_address at h3
    simp only [cli_main]
    rw [if_neg hlt, h2]
    simp only [Bool.not_true]
    rw [if_neg Bool.false_ne_true]
    refine ⟨rfl, ?_⟩
    simp only [check_ca_lines]
    cases hb : beginsWith (argv.getD 1 "").data ("0x".data) with
    | false => simp
    | true =>
      rw [hb] at h3
      have hl : ((argv.getD 1 "").data.length == 42) = false := by simpa using h3
      simp only [Bool.not_true, Bool.false_or]
      have hbne : ((argv.getD 1 "").data.length != 42) = true := by
        simp only [bne]
        rw [hl]
        rfl
      rw [hbne]
      simp

/-- C9 witness: missing arguments exit 1; invalid model exits 1; the invalid
address `abc` exits 0 with the format-error line printed. -/
theorem c9_amended_exit_codes_witness :
    (cli_main ["checkHP.py"] (NetResult.err "e")).exit_code = 1 ∧
    (cli_main ["checkHP.py", "abc", "gpt4"] (NetResult.err "e")).exit_code = 1 ∧
    ((cli_main ["checkHP.py", "abc"] (NetResult.err "e")).exit_code = 0 ∧
      "Error: Invalid token address format" ∈
        (cli_main ["checkHP.py", "abc"] (NetResult.err "e")).printed) :=
  ⟨(c9_amended_exit_codes ["checkHP.py"] (NetResult.err "e")).1 (by decide),
   (c9_amended_exit_codes ["checkHP.py", "abc", "gpt4"] (NetResult.err "e")).2.1
     (by decide) (by decide),
   (c9_amended_exit_codes ["checkHP.py", "abc"] (NetResult.err "e")).2.2
     (by decide) (by decide) (by decide)⟩
